import Mathlib

/-!
# Verification of the Stock_Scanner scheduler core

A shallow embedding of the slot-aligned scheduler, seen-set reconciliation
and persistence logic of the Stock_Scanner repository (`src/main.py`,
`src/chartink.py`, `src/storage.py`, `src/notifier.py`,
`src/telegram_notifier.py`), together with theorems settling the
specification claims about it.

Time model: instants are `Nat` values counting seconds since the midnight
that opens an epoch Monday, in the single configured timezone
(Asia/Kolkata).  `dateOf`/`timeOf` split an instant into its calendar day
and its time-of-day in seconds; `weekday` follows Python's Monday = 0
convention (epoch day 0 is a Monday).  Python `datetime`/`time`
comparisons are lexicographic on (day, time-of-day), which coincides with
the `Nat` order on absolute seconds.
-/

namespace StockScanner

/-- Seconds per calendar day. -/
def secPerDay : Nat := 86400

/-- Calendar day index of an instant. -/
def dateOf (t : Nat) : Nat := t / secPerDay

/-- Time of day (seconds since midnight) of an instant; Python `dt.time()`. -/
def timeOf (t : Nat) : Nat := t % secPerDay

/-- Python `date.weekday()`: Monday = 0 … Sunday = 6 (epoch day 0 is a Monday). -/
def weekday (d : Nat) : Nat := d % 7

/-- Python `datetime.combine(date, time, tzinfo=tz)`. -/
def combine (d : Nat) (tod : Nat) : Nat := d * secPerDay + tod

/-- Python `datetime.hour` of an instant. -/
def hourOf (t : Nat) : Nat := timeOf t / 3600

/-- Python `datetime.minute` of an instant. -/
def minuteOf (t : Nat) : Nat := timeOf t % 3600 / 60

/-- `trading_start = datetime.time(9, 20)` from `main.py`. -/
def tradingStart : Nat := 9 * 3600 + 20 * 60

/-- `trading_end = datetime.time(15, 20)` (inclusive) from `main.py`. -/
def tradingEnd : Nat := 15 * 3600 + 20 * 60

/-- The `while target_date.weekday() >= 5: target_date += timedelta(days=1)`
loop from `next_trading_start` in `main.py`: advance a day index past
Saturday (5) and Sunday (6). -/
def skipWeekend (d : Nat) : Nat :=
  if d % 7 ≥ 5 then skipWeekend (d + 1) else d
termination_by (if d % 7 ≥ 5 then 7 - d % 7 else 0)
decreasing_by
  simp_wf
  split <;> omega

/-- `next_trading_start(after)` from `main.py`: take today's date, move to
the next day when strictly past `trading_end`, skip the weekend, and
combine with `trading_start`. -/
def nextTradingStart (after : Nat) : Nat :=
  combine
    (skipWeekend (if timeOf after > tradingEnd then dateOf after + 1 else dateOf after))
    tradingStart

/-- The `next_minute` computation in `next_slot` (`main.py`): the branch on
`current.minute` selecting the next slot minute among 20, 35, 50, 5. -/
def slotMinute (minute : Nat) : Nat :=
  if minute < 20 then 20
  else if minute < 35 then 35
  else if minute < 50 then 50
  else 5

/-- The accompanying hour update in `next_slot`: `hour += 1` exactly in the
`minute >= 50` branch. -/
def slotHour (hour minute : Nat) : Nat :=
  if minute < 50 then hour else hour + 1

/-- The second advance in `next_slot` when the computed slot is not strictly
in the future: `if next_minute == 50: hour += 1` (minute part). -/
def bumpMinute (nextMinute : Nat) : Nat :=
  if nextMinute = 50 then 5 else nextMinute + 15

/-- The second advance in `next_slot` when the computed slot is not strictly
in the future: `if next_minute == 50: hour += 1` (hour part). -/
def bumpHour (hour nextMinute : Nat) : Nat :=
  if nextMinute = 50 then hour + 1 else hour

/-- `next_slot(current)` from `main.py`: first slot when before
`trading_start`, `next_trading_start` when past `trading_end`, otherwise the
next boundary with minute in {20, 35, 50, 5}, advancing once more when the
candidate is not strictly after `current`, and falling back to
`next_trading_start` when the candidate passes `trading_end`. -/
def nextSlot (current : Nat) : Nat :=
  if timeOf current < tradingStart then combine (dateOf current) tradingStart
  else if timeOf current > tradingEnd then nextTradingStart current
  else
    let hour := hourOf current
    let minute := minuteOf current
    let nextMinute := slotMinute minute
    let hour1 := slotHour hour minute
    let nextTime := hour1 * 3600 + nextMinute * 60
    if nextTime > tradingEnd then nextTradingStart current
    else if combine (dateOf current) nextTime ≤ current then
      let hour2 := bumpHour hour1 nextMinute
      let nextMinute2 := bumpMinute nextMinute
      let nextTime2 := hour2 * 3600 + nextMinute2 * 60
      if nextTime2 > tradingEnd then nextTradingStart current
      else combine (dateOf current) nextTime2
    else combine (dateOf current) nextTime

/-- The daily-reset guard of the scheduler loop (`main.py`, end of the
`while True` body): after the slot's scans, `nxt = next_slot(now)` and the
reset branch runs only when `nxt.time() > trading_end`. -/
def dailyResetCheck (now : Nat) : Bool := timeOf (nextSlot now) > tradingEnd

/-! ## Scan execution, reconciliation and notification (`main.py` slot loop,
`chartink.py` retry loop) -/

/-- Python string comparison used by `sorted`: lexicographic on the
character sequence. -/
def pyStrLe (a b : String) : Prop := a.data ≤ b.data

instance : DecidableRel pyStrLe :=
  fun a b => inferInstanceAs (Decidable (a.data ≤ b.data))

instance : IsTrans String pyStrLe := ⟨fun _ _ _ => le_trans⟩

instance : IsAntisymm String pyStrLe :=
  ⟨fun a b h1 h2 => by cases a; cases b; exact congrArg String.mk (le_antisymm h1 h2)⟩

instance : IsTotal String pyStrLe := ⟨fun a b => le_total a.data b.data⟩

/-- Python `sorted(list(s))` on a set of strings: the unique sorted
duplicate-free enumeration of the set, in Python string order. -/
def sortedList (s : Finset String) : List String :=
  Quot.liftOn s.val (fun l => List.insertionSort pyStrLe l) fun a b h =>
    List.eq_of_perm_of_sorted
      (((List.perm_insertionSort _ a).trans h).trans (List.perm_insertionSort _ b).symm)
      (List.sorted_insertionSort _ a) (List.sorted_insertionSort _ b)

/-- Target-stock computation of the slot loop (`main.py` lines 299-307):
`current_set = set(stocks)`, `new_stocks = sorted(list(current_set - seen))`,
and `target_stocks = sorted(list(current_set))` under `ALWAYS_NOTIFY`, else
`new_stocks`. -/
def deltaOf (stocks : List String) (seen : Finset String) (alwaysNotify : Bool) :
    List String :=
  let currentSet := stocks.toFinset
  let newStocks := sortedList (currentSet \ seen)
  if alwaysNotify then sortedList currentSet else newStocks

/-- Modelled from the spec (section 4.2 `reconcile`), for comparison with
`deltaOf`: `delta = always_notify ? sorted(result.items) : sorted(result.items − seen)`. -/
def specDelta (items seen : Finset String) (alwaysNotify : Bool) : List String :=
  if alwaysNotify then sortedList items else sortedList (items \ seen)

/-- The seen-set update after a successful run (`main.py` line 328):
`seen |= current_set`. -/
def scanStepSeen (seen : Finset String) (stocks : List String) : Finset String :=
  seen ∪ stocks.toFinset

/-- Observable outcome of `client.run_scan_and_fetch(scan_url)` for one scan:
a successful stock list, the maintenance flag after exhausted retries, or a
propagated exception (`run_scan_and_fetch` catches only
`ChartinkMaintenanceError`; the timeout `Exception` raised by `open_scan`
propagates). -/
inductive FetchOutcome
  | ok (stocks : List String)
  | maint
  | exn (e : String)

/-- Result of executing the per-scan `for scan in scans` loop of one slot
(`main.py` lines 289-331): normal completion with the final per-scan seen
sets, the `save_seen` writes and the dispatched batch notifications — or a
crash carrying the state reached when an exception propagated out of the
loop (no `try`/`except` surrounds the loop body). -/
inductive SlotResult
  | ok (seenMap : String → Finset String) (writes : List (String × List String))
      (notifs : List (String × List String))
  | crash (e : String) (seenMap : String → Finset String)
      (writes : List (String × List String)) (notifs : List (String × List String))

/-- The per-scan slot loop of `main.py` (lines 289-331): for each scan in
order, fetch; on maintenance print and `continue`; on success compute
`target_stocks` via `deltaOf`, dispatch one batch notification when
non-empty, fold the stocks into the scan's seen set and `save_seen` the
sorted result.  A propagated exception aborts the loop at once. -/
def runSlot (scans : List String) (fetch : String → FetchOutcome)
    (seenMap : String → Finset String) (alwaysNotify : Bool)
    (writes notifs : List (String × List String)) : SlotResult :=
  match scans with
  | [] => .ok seenMap writes notifs
  | s :: rest =>
    match fetch s with
    | .exn e => .crash e seenMap writes notifs
    | .maint => runSlot rest fetch seenMap alwaysNotify writes notifs
    | .ok stocks =>
      let seen := seenMap s
      let target := deltaOf stocks seen alwaysNotify
      let seen' := scanStepSeen seen stocks
      let seenMap' := fun n => if n = s then seen' else seenMap n
      runSlot rest fetch seenMap' alwaysNotify
        (writes ++ [(s, sortedList seen')])
        (notifs ++ (if target = [] then [] else [(s, target)]))

/-- Whether the slot loop was aborted by a propagated exception. -/
def isCrash : SlotResult → Bool
  | .crash _ _ _ _ => true
  | _ => false

/-- Per-scan seen sets at the end (or abort point) of the slot loop. -/
def resultSeen : SlotResult → (String → Finset String)
  | .ok m _ _ => m
  | .crash _ m _ _ => m

/-- `save_seen` writes performed during the slot loop. -/
def resultWrites : SlotResult → List (String × List String)
  | .ok _ w _ => w
  | .crash _ _ w _ => w

/-- Batch notifications dispatched during the slot loop. -/
def resultNotifs : SlotResult → List (String × List String)
  | .ok _ _ n => n
  | .crash _ _ _ n => n

/-- Seen set after a sequence of successful runs of one scan, each applying
the `seen |= current_set` update of `main.py`. -/
def seenAfterRuns (seen0 : Finset String) (runs : List (List String)) : Finset String :=
  runs.foldl scanStepSeen seen0

/-- One attempt of the scan source inside `run_scan_and_fetch`
(`chartink.py`): either the parsed stock list or a raised
`ChartinkMaintenanceError`. -/
inductive SourceOutcome
  | stocks (l : List String)
  | maintenanceError

/-- The `for attempt in range(max_retries)` loop of `run_scan_and_fetch`
(`chartink.py` lines 270-289), instrumented with source-call and sleep
counters: on success return `(stocks, False)`; on `ChartinkMaintenanceError`
sleep `retry_delay` and continue when `attempt < max_retries - 1`, else
return `([], True)`; the fallback after the loop also returns `([], True)`. -/
def fetchGo (source : Nat → SourceOutcome) (maxRetries : Nat) :
    List Nat → Nat → Nat → (List String × Bool) × Nat × Nat
  | [], calls, sleeps => (([], true), calls, sleeps)
  | attempt :: rest, calls, sleeps =>
    match source attempt with
    | .stocks l => ((l, false), calls + 1, sleeps)
    | .maintenanceError =>
      if attempt < maxRetries - 1 then fetchGo source maxRetries rest (calls + 1) (sleeps + 1)
      else (([], true), calls + 1, sleeps)

/-- `run_scan_and_fetch(scan_url, max_retries, retry_delay)` from
`chartink.py`, returning its `(stocks, maintenance)` pair together with how
many times the source was called and how many times it slept. -/
def runScanAndFetch (source : Nat → SourceOutcome) (maxRetries : Nat) :
    (List String × Bool) × Nat × Nat :=
  fetchGo source maxRetries (List.range maxRetries) 0 0

/-! ## Persistence (`storage.py`) -/

/-- A decoded JSON value, as produced by `json.load` in `load_seen`. -/
inductive PyJson
  | null
  | bool (b : Bool)
  | num (n : Int)
  | str (s : String)
  | arr (elems : List PyJson)
  | obj (keys : List String) (vals : List PyJson)

/-- A hashable Python primitive: the JSON values `set()` accepts as
elements. -/
inductive PyPrim
  | null
  | bool (b : Bool)
  | num (n : Int)
  | str (s : String)
deriving DecidableEq

/-- Hashability of one element: Python `set(...)` raises `TypeError` on
list and dict elements. -/
def toPrim : PyJson → Option PyPrim
  | .null => some .null
  | .bool b => some (.bool b)
  | .num n => some (.num n)
  | .str s => some (.str s)
  | .arr _ => none
  | .obj _ _ => none

/-- Iterate the elements of a JSON array as `set(data)` does, failing at the
first unhashable one. -/
def toPrims : List PyJson → Option (List PyPrim)
  | [] => some []
  | j :: rest =>
    match toPrim j, toPrims rest with
    | some p, some ps => some (p :: ps)
    | _, _ => none

/-- Python `set(data)` on a decoded JSON value: a set of its elements for an
array, of its one-character substrings for a string, of its keys for a dict;
a `TypeError` for null, booleans and numbers (not iterable). -/
def pySet : PyJson → Except String (Finset PyPrim)
  | .arr elems =>
    match toPrims elems with
    | some prims => .ok prims.toFinset
    | none => .error ("TypeError: unhashable type")
  | .str s => .ok ((s.data.map (fun c => PyPrim.str c.toString)).toFinset)
  | .obj keys _ => .ok ((keys.map PyPrim.str).toFinset)
  | _ => .error ("TypeError: argument is not iterable")

/-- State of the seen-stocks file as `load_seen` observes it: absent,
failing to read or decode (`OSError` or `json.JSONDecodeError`, the two
exceptions `load_seen` catches), or successfully decoded JSON. -/
inductive FileState
  | missing
  | unreadable
  | content (j : PyJson)

/-- `load_seen(path)` from `storage.py`: empty set when the file does not
exist; `set(json.load(file))` otherwise, with only `json.JSONDecodeError`
and `OSError` caught (logged, empty set returned). -/
def loadSeen : FileState → Except String (Finset PyPrim)
  | .missing => .ok ∅
  | .unreadable => .ok ∅
  | .content j => pySet j

/-- `save_seen(stocks, path)` from `storage.py`: the file content it
produces, `json.dump(sorted(list(stocks)), file)` — a JSON array of the
sorted symbols. -/
def saveContent (stocks : Finset String) : FileState :=
  .content (.arr ((sortedList stocks).map PyJson.str))

/-! ## Module-level imports of `main.py` (lines 15-18) -/

/-- The `from module import name` pairs at the top of `main.py`. -/
def mainImports : List (String × String) :=
  [("chartink", "ChartinkClient"),
   ("notifier", "format_stock_alert"), ("notifier", "send_discord"),
   ("notifier", "format_discord_batch_alert"),
   ("telegram_notifier", "format_telegram_alert"), ("telegram_notifier", "send_telegram"),
   ("telegram_notifier", "format_telegram_batch_alert"),
   ("storage", "load_seen"), ("storage", "save_seen")]

/-- The module-level names (imports, constants, classes and functions)
defined by each module of the repository. -/
def moduleNames : String → List String := fun m =>
  if m = "notifier" then ["datetime", "os", "requests", "send_discord", "format_stock_alert"]
  else if m = "telegram_notifier" then
    ["datetime", "os", "Optional", "requests", "send_telegram", "format_telegram_alert"]
  else if m = "storage" then ["json", "Path", "DEFAULT_PATH", "load_seen", "save_seen"]
  else if m = "chartink" then
    ["json", "time", "Path", "List", "Optional", "Tuple", "BeautifulSoup", "webdriver",
     "TimeoutException", "WebDriverException", "By", "EdgeService", "EC", "WebDriverWait",
     "LOGIN_EMAIL_INPUT", "LOGIN_PASSWORD_INPUT", "LOGIN_SUBMIT_BUTTON",
     "RUN_SCAN_BUTTON_XPATH", "ChartinkMaintenanceError", "ChartinkClient"]
  else []

/-- Whether every `from module import name` of `main.py` resolves. -/
def importsResolve : Bool :=
  mainImports.all (fun p => (moduleNames p.1).contains p.2)

/-! ## Concrete scenario inputs -/

/-- A fetch environment where the first scan's page load times out (the
`Exception` that `open_scan` raises on `TimeoutException`, which
`run_scan_and_fetch` does not catch) while the second scan would succeed. -/
def timeoutFetch : String → FetchOutcome := fun nm =>
  if nm = "scan1" then .exn ("Failed to open scan page: timeout") else .ok ["TCS"]

/-- A fetch environment where the first scan exhausts its maintenance
retries while the second succeeds. -/
def maintFetch : String → FetchOutcome := fun nm =>
  if nm = "scan1" then .maint else .ok ["TCS"]

/-- All seen sets empty, as at the start of a fresh day. -/
def emptySeenMap : String → Finset String := fun _ => ∅

/-! ## Helper lemmas -/

lemma timeOf_combine (d t : Nat) (h : t < secPerDay) : timeOf (combine d t) = t := by
  simp only [timeOf, combine, secPerDay] at *
  omega

lemma dateOf_combine (d t : Nat) (h : t < secPerDay) : dateOf (combine d t) = d := by
  simp only [dateOf, combine, secPerDay] at *
  omega

lemma timeOf_nextTradingStart (t : Nat) : timeOf (nextTradingStart t) = tradingStart := by
  unfold nextTradingStart
  exact timeOf_combine _ _ (by decide)

lemma skipWeekend_of_lt (d : Nat) (h : d % 7 < 5) : skipWeekend d = d := by
  unfold skipWeekend
  rw [if_neg (by omega)]

lemma skipWeekend_five (d : Nat) (h : d % 7 = 5) : skipWeekend d = d + 2 := by
  unfold skipWeekend
  rw [if_pos (by omega)]
  unfold skipWeekend
  rw [if_pos (by omega)]
  unfold skipWeekend
  rw [if_neg (by omega)]

lemma skipWeekend_six (d : Nat) (h : d % 7 = 6) : skipWeekend d = d + 1 := by
  unfold skipWeekend
  rw [if_pos (by omega)]
  unfold skipWeekend
  rw [if_neg (by omega)]

/-- Every value `next_slot` returns carries a time-of-day of at most
`trading_end` (each in-window branch is guarded by a comparison against
`trading_end`, and both fallbacks return a `trading_start` time-of-day). -/
lemma nextSlot_time_le (t : Nat) : timeOf (nextSlot t) ≤ tradingEnd := by
  unfold nextSlot
  dsimp only
  split_ifs with h1 h2 h3 h4 h5
  · rw [timeOf_combine _ _ (by decide)]; decide
  · rw [timeOf_nextTradingStart]; decide
  · rw [timeOf_nextTradingStart]; decide
  · rw [timeOf_nextTradingStart]; decide
  · rw [timeOf_combine]
    · simp only [tradingEnd] at h5 ⊢; omega
    · simp only [tradingEnd, secPerDay] at h5 ⊢; omega
  · rw [timeOf_combine]
    · simp only [tradingEnd] at h3 ⊢; omega
    · simp only [tradingEnd, secPerDay] at h3 ⊢; omega

/-- `next_trading_start` at an instant whose time-of-day is at or before
`trading_end`, on a weekday: the same day's `trading_start` — even when the
instant is already past it. -/
lemma nextTradingStart_same_day (d t : Nat) (ht : t < secPerDay) (hle : t ≤ tradingEnd)
    (hwd : weekday d < 5) : nextTradingStart (combine d t) = combine d tradingStart := by
  unfold nextTradingStart
  rw [timeOf_combine _ _ ht, dateOf_combine _ _ ht, if_neg (by omega),
    skipWeekend_of_lt d (by simpa [weekday] using hwd)]

/-- `next_trading_start` strictly past `trading_end`: the next calendar day
when that day is a weekday. -/
lemma nextTradingStart_next_day (d t : Nat) (ht : t < secPerDay) (hgt : t > tradingEnd)
    (hwd : weekday (d + 1) < 5) :
    nextTradingStart (combine d t) = combine (d + 1) tradingStart := by
  unfold nextTradingStart
  rw [timeOf_combine _ _ ht, dateOf_combine _ _ ht, if_pos (by omega),
    skipWeekend_of_lt (d + 1) (by simpa [weekday] using hwd)]

/-- `next_trading_start` on a Friday strictly past `trading_end`: the
following Monday's `trading_start`. -/
lemma nextTradingStart_friday (d t : Nat) (ht : t < secPerDay) (hgt : t > tradingEnd)
    (hwd : weekday d = 4) :
    nextTradingStart (combine d t) = combine (d + 3) tradingStart := by
  unfold nextTradingStart
  simp only [weekday] at hwd
  rw [timeOf_combine _ _ ht, dateOf_combine _ _ ht, if_pos (by omega),
    skipWeekend_five (d + 1) (by omega)]

/-- `next_trading_start` on a weekend instant: the coming Monday's
`trading_start`. -/
lemma nextTradingStart_weekend (d t : Nat) (ht : t < secPerDay) (hwd : weekday d ≥ 5) :
    nextTradingStart (combine d t) = combine (d + 7 - weekday d) tradingStart := by
  unfold nextTradingStart
  simp only [weekday] at hwd ⊢
  rw [timeOf_combine _ _ ht, dateOf_combine _ _ ht]
  split_ifs with hgt
  · rcases (by omega : d % 7 = 5 ∨ d % 7 = 6) with h | h
    · rw [skipWeekend_six (d + 1) (by omega)]; simp only [combine, secPerDay, tradingStart]; omega
    · rw [skipWeekend_of_lt (d + 1) (by omega)]; simp only [combine, secPerDay, tradingStart]; omega
  · rcases (by omega : d % 7 = 5 ∨ d % 7 = 6) with h | h
    · rw [skipWeekend_five d h]; simp only [combine, secPerDay, tradingStart]; omega
    · rw [skipWeekend_six d h]; simp only [combine, secPerDay, tradingStart]; omega

/-- Inside the window with current minute below 20, `next_slot` jumps to
minute 20 of the current hour — skipping the `:05` boundary of that hour
whenever the current minute is below 5. -/
lemma nextSlot_minute_lt20 (d h m s : Nat) (hwin1 : tradingStart ≤ h * 3600 + m * 60 + s)
    (hwin2 : h * 3600 + m * 60 + s ≤ tradingEnd) (hm : m < 20) (hs : s < 60) :
    nextSlot (combine d (h * 3600 + m * 60 + s)) = combine d (h * 3600 + 20 * 60) := by
  have hday : h * 3600 + m * 60 + s < secPerDay := by
    simp only [tradingEnd] at hwin2; simp only [secPerDay]; omega
  unfold nextSlot
  dsimp only
  rw [timeOf_combine _ _ hday, dateOf_combine _ _ hday]
  simp only [tradingStart, tradingEnd] at *
  have hh : hourOf (combine d (h * 3600 + m * 60 + s)) = h := by
    simp only [hourOf, combine, timeOf, secPerDay]; omega
  have hmm : minuteOf (combine d (h * 3600 + m * 60 + s)) = m := by
    simp only [minuteOf, combine, timeOf, secPerDay]; omega
  rw [hh, hmm]
  rw [show slotMinute m = 20 by unfold slotMinute; rw [if_pos hm]]
  rw [show slotHour h m = h by unfold slotHour; rw [if_pos (by omega)]]
  rw [if_neg (by omega)]
  rw [if_neg (show ¬(combine d (h * 3600 + 20 * 60) ≤ combine d (h * 3600 + m * 60 + s)) by
        simp only [combine, secPerDay]; omega)]
  rw [if_neg (by omega), if_neg (by omega)]

/-- `next_slot` at exactly `trading_end` on a weekday falls back to
`next_trading_start`, which yields the same day's `trading_start` — an
instant six hours in the past, not the following trading day. -/
lemma nextSlot_end_wrap (d : Nat) (hwd : weekday d < 5) :
    nextSlot (combine d tradingEnd) = combine d tradingStart := by
  unfold nextSlot
  dsimp only
  rw [timeOf_combine _ _ (by decide), dateOf_combine _ _ (by decide)]
  have hhour : hourOf (combine d tradingEnd) = 15 := by
    simp only [hourOf, combine, timeOf, secPerDay, tradingEnd]; omega
  have hmin : minuteOf (combine d tradingEnd) = 20 := by
    simp only [minuteOf, combine, timeOf, secPerDay, tradingEnd]; omega
  rw [if_neg (by decide), if_neg (by decide), hhour, hmin]
  rw [show slotMinute 20 = 35 from by decide, show slotHour 15 20 = 15 from by decide]
  rw [if_pos (by decide)]
  unfold nextTradingStart
  rw [timeOf_combine _ _ (by decide), dateOf_combine _ _ (by decide),
    if_neg (by decide), skipWeekend_of_lt d (by simpa [weekday] using hwd)]

/-- Membership in `sortedList` is membership in the set. -/
lemma mem_sortedList (s : Finset String) (a : String) :
    a ∈ sortedList s ↔ a ∈ s := by
  rcases s with ⟨⟨l⟩, hn⟩
  show a ∈ List.insertionSort pyStrLe l ↔ _
  rw [(List.perm_insertionSort pyStrLe l).mem_iff]
  simp [Finset.mem_mk]

lemma toPrims_map_str (l : List String) :
    toPrims (l.map PyJson.str) = some (l.map PyPrim.str) := by
  induction l with
  | nil => rfl
  | cons a t ih => simp [toPrims, toPrim, ih]

/-- The seen set before a foldl of `seen |= current_set` updates is
contained in the seen set after. -/
lemma seen_subset_foldl (l : List (List String)) :
    ∀ s : Finset String, s ⊆ l.foldl scanStepSeen s := by
  induction l with
  | nil => intro s; simp
  | cons a t ih =>
    intro s
    exact (Finset.subset_union_left).trans (ih (scanStepSeen s a))

/-- `load_seen` applied to a file written by `save_seen`: the persisted set
is recovered. -/
lemma loadSeen_saveContent (stocks : Finset String) :
    loadSeen (saveContent stocks) = .ok (stocks.image PyPrim.str) := by
  simp only [saveContent, loadSeen, pySet, toPrims_map_str]
  congr 1
  ext p
  simp [List.mem_toFinset, List.mem_map, Finset.mem_image, mem_sortedList]

/-! ## Claims -/

/-- C1: the claim says the scheduler performs the daily reset exactly once
per trading day in the iteration after the last slot.  In the code the
reset branch is guarded by `next_slot(now).time() > trading_end`, but every
value `next_slot` returns has time-of-day at most `trading_end` (after the
last slot it is the next day's 09:20), so the guard is false at every
instant and the reset code never executes at all. -/
theorem claim_C1_daily_reset_guard_never_fires (now : Nat) :
    dailyResetCheck now = false := by
  simp only [dailyResetCheck, decide_eq_false_iff_not, not_lt]
  exact nextSlot_time_le now

/-- C2: the claim says every name `main.py` imports resolves to a symbol of
the module it names.  In fact `format_discord_batch_alert` is brought in
from `notifier` and `format_telegram_batch_alert` from `telegram_notifier`,
but neither module defines any such name, so module load raises
`ImportError` and the process cannot start. -/
theorem claim_C2_batch_alert_imports_missing :
    importsResolve = false ∧
    ("notifier", "format_discord_batch_alert") ∈ mainImports ∧
    "format_discord_batch_alert" ∉ moduleNames ("notifier") ∧
    ("telegram_notifier", "format_telegram_batch_alert") ∈ mainImports ∧
    "format_telegram_batch_alert" ∉ moduleNames ("telegram_notifier") :=
  ⟨by decide, by decide, by decide, by decide, by decide⟩

/-- C3 counterexample: at Monday noon — an instant within the trading
window that does not precede the day's start — `next_trading_start` still
returns that same Monday's 09:20, an instant in the past; the claim says
today's start is returned only when the argument precedes it, and that the
result is on a trading day strictly following the argument's window. -/
theorem claim_C3_counterexample :
    nextTradingStart (combine 0 (12 * 3600)) = combine 0 tradingStart ∧
    combine 0 tradingStart < combine 0 (12 * 3600) :=
  ⟨nextTradingStart_same_day 0 (12 * 3600) (by decide) (by decide) (by decide), by decide⟩

/-- C3 (amended): `next_trading_start(after)` keeps today's date whenever
`after`'s time-of-day is at or before `trading_end` — even when `after` is
already past today's start, in which case the result precedes `after` — and
moves to the next calendar day when strictly past `trading_end`; the
resulting day is advanced past Saturday and Sunday, so on a Friday after
`trading_end` it returns the following Monday's start, and on a weekend
instant the coming Monday's start. -/
theorem claim_C3_next_trading_start_amended :
    (∀ d t, t < secPerDay → t ≤ tradingEnd → weekday d < 5 →
      nextTradingStart (combine d t) = combine d tradingStart) ∧
    (∀ d t, t < secPerDay → t > tradingEnd → weekday (d + 1) < 5 →
      nextTradingStart (combine d t) = combine (d + 1) tradingStart) ∧
    (∀ d t, t < secPerDay → t > tradingEnd → weekday d = 4 →
      nextTradingStart (combine d t) = combine (d + 3) tradingStart) ∧
    (∀ d t, t < secPerDay → weekday d ≥ 5 →
      nextTradingStart (combine d t) = combine (d + 7 - weekday d) tradingStart) :=
  ⟨nextTradingStart_same_day, nextTradingStart_next_day,
   nextTradingStart_friday, nextTradingStart_weekend⟩

/-- C3 witness: a Friday 15:21 instant (day 4, strictly after
`trading_end`) maps to the following Monday's (day 7) start. -/
theorem claim_C3_witness :
    nextTradingStart (combine 4 (15 * 3600 + 21 * 60)) = combine 7 tradingStart :=
  claim_C3_next_trading_start_amended.2.2.1 4 (15 * 3600 + 21 * 60)
    (by decide) (by decide) (by decide)

/-- C4 counterexample: at Monday 10:03 the next boundary that is an exact
15-minute multiple from 09:20 is 10:05 (the fourth boundary), yet
`next_slot` returns 10:20; and at exactly 15:20 — the last boundary —
`next_slot` returns the same Monday's 09:20, an instant in the past rather
than a timestamp on the following trading day. -/
theorem claim_C4_counterexample :
    nextSlot (combine 0 (10 * 3600 + 3 * 60)) = combine 0 (10 * 3600 + 20 * 60) ∧
    tradingStart + 3 * 900 = 10 * 3600 + 5 * 60 ∧
    nextSlot (combine 0 tradingEnd) = combine 0 tradingStart ∧
    combine 0 tradingStart < combine 0 tradingEnd :=
  ⟨by decide, by decide, nextSlot_end_wrap 0 (by decide), by decide⟩

/-- C4 (amended): iterating `next_slot` from the window start 09:20 visits
every 15-minute boundary 09:35 … 15:20 exactly once; but within the window
`next_slot` picks the next minute among {20, 35, 50, 5-of-next-hour} from
the current minute alone, so from minutes 0-4 it skips the `:05` boundary
of the current hour and jumps to `:20`; and applied at exactly
`trading_end` on a weekday it returns the same day's start — a past
instant — rather than the following trading day's. -/
theorem claim_C4_next_slot_amended :
    ((List.range 25).map (fun k => nextSlot^[k] (combine 0 tradingStart)) =
      (List.range 25).map (fun k => combine 0 (tradingStart + 900 * k))) ∧
    (∀ d h m s, tradingStart ≤ h * 3600 + m * 60 + s →
      h * 3600 + m * 60 + s ≤ tradingEnd → m < 20 → s < 60 →
      nextSlot (combine d (h * 3600 + m * 60 + s)) = combine d (h * 3600 + 20 * 60)) ∧
    (∀ d, weekday d < 5 → nextSlot (combine d tradingEnd) = combine d tradingStart) :=
  ⟨by decide, nextSlot_minute_lt20, nextSlot_end_wrap⟩

/-- C4 witness: the in-window rule at Monday 10:03:00 yields 10:20, and the
end-of-window rule at Monday 15:20 yields the same Monday's 09:20. -/
theorem claim_C4_witness :
    nextSlot (combine 0 (10 * 3600 + 3 * 60 + 0)) = combine 0 (10 * 3600 + 20 * 60) ∧
    nextSlot (combine 0 tradingEnd) = combine 0 tradingStart :=
  ⟨claim_C4_next_slot_amended.2.1 0 10 3 0 (by decide) (by decide) (by decide) (by decide),
   claim_C4_next_slot_amended.2.2 0 (by decide)⟩

/-- C5: the claim says an unexpected exception inside a single scan's
execution (for example the page-load timeout `open_scan` raises, which
`run_scan_and_fetch` does not catch) is logged and the loop proceeds to the
next scan and slot.  In fact no `try`/`except` surrounds the per-scan body
of `main.py`'s slot loop, so when the first scan's fetch raises, the loop
aborts: nothing is written, no notification goes out and the second scan —
which would have succeeded — never runs. -/
theorem claim_C5_scan_exception_crashes_loop :
    runSlot ["scan1", "scan2"] timeoutFetch emptySeenMap false [] [] =
      SlotResult.crash ("Failed to open scan page: timeout") emptySeenMap [] [] ∧
    isCrash (runSlot ["scan1", "scan2"] timeoutFetch emptySeenMap false [] []) = true ∧
    resultWrites (runSlot ["scan1", "scan2"] timeoutFetch emptySeenMap false [] []) = [] ∧
    resultNotifs (runSlot ["scan1", "scan2"] timeoutFetch emptySeenMap false [] []) = [] ∧
    resultSeen (runSlot ["scan1", "scan2"] timeoutFetch emptySeenMap false [] []) "scan2" = ∅ :=
  ⟨rfl, by decide, by decide, by decide, by decide⟩

/-- C6: a source signalling `ChartinkMaintenanceError` on every attempt is
called exactly 3 times by `run_scan_and_fetch` with `max_retries = 3`, the
loop sleeps `retry_delay` exactly twice — never after the last attempt —
and the result is the empty list with the maintenance flag true, not a
propagated error. -/
theorem claim_C6_maintenance_exhaustion (source : Nat → SourceOutcome)
    (h : ∀ n, source n = SourceOutcome.maintenanceError) :
    runScanAndFetch source 3 = (([], true), 3, 2) := by
  simp only [runScanAndFetch, show List.range 3 = [0, 1, 2] from by decide,
    fetchGo, h 0, h 1, h 2]
  norm_num

/-- C6 witness: the always-under-maintenance source. -/
theorem claim_C6_witness :
    runScanAndFetch (fun _ => SourceOutcome.maintenanceError) 3 = (([], true), 3, 2) :=
  claim_C6_maintenance_exhaustion (fun _ => SourceOutcome.maintenanceError) (fun _ => rfl)

/-- C7: on every successful run the notified delta equals
`sorted(result.items − seen)` when `always_notify` is false and
`sorted(result.items)` when it is true; in particular with
`seen = {A, B}` and a run returning `{B, C, D}` the delta is `[C, D]`
respectively `[B, C, D]`. -/
theorem claim_C7_delta_correctness :
    (∀ (stocks : List String) (seen : Finset String) (an : Bool),
      deltaOf stocks seen an = specDelta stocks.toFinset seen an) ∧
    deltaOf ["B", "C", "D"] {"A", "B"} false = ["C", "D"] ∧
    deltaOf ["B", "C", "D"] {"A", "B"} true = ["B", "C", "D"] :=
  ⟨fun _ _ _ => rfl, by decide, by decide⟩

/-- C8: a scan whose fetch reports maintenance is skipped by the slot loop:
its seen set is exactly unchanged (in memory, and on disk because no
`save_seen` write carries its name), it dispatches no notification, and the
loop simply continues with the remaining scans. -/
theorem claim_C8_maintenance_skip (s : String) (fetch : String → FetchOutcome)
    (hs : fetch s = .maint) :
    (∀ scans (seenMap : String → Finset String) (an : Bool)
        (w n : List (String × List String)),
      resultSeen (runSlot scans fetch seenMap an w n) s = seenMap s ∧
      (∀ x ∈ resultWrites (runSlot scans fetch seenMap an w n), x ∈ w ∨ x.1 ≠ s) ∧
      (∀ x ∈ resultNotifs (runSlot scans fetch seenMap an w n), x ∈ n ∨ x.1 ≠ s)) ∧
    (∀ scans (seenMap : String → Finset String) (an : Bool)
        (w n : List (String × List String)),
      runSlot (s :: scans) fetch seenMap an w n = runSlot scans fetch seenMap an w n) := by
  constructor
  · intro scans
    induction scans with
    | nil =>
      intro m an w n
      exact ⟨rfl, fun x hx => Or.inl hx, fun x hx => Or.inl hx⟩
    | cons a rest ih =>
      intro m an w n
      rcases ha : fetch a with stocks | _ | e
      · have hne : s ≠ a := fun hsa => by rw [hsa, ha] at hs; cases hs
        simp only [runSlot, ha]
        obtain ⟨h1, h2, h3⟩ := ih (fun nm => if nm = a then scanStepSeen (m a) stocks else m nm)
          an (w ++ [(a, sortedList (scanStepSeen (m a) stocks))])
          (n ++ if deltaOf stocks (m a) an = [] then [] else [(a, deltaOf stocks (m a) an)])
        refine ⟨?_, ?_, ?_⟩
        · rw [h1, if_neg hne]
        · intro x hx
          rcases h2 x hx with hxw | hxs
          · rcases List.mem_append.mp hxw with h' | h'
            · exact Or.inl h'
            · right
              rcases List.mem_singleton.mp h' with rfl
              exact fun hc => hne hc.symm
          · exact Or.inr hxs
        · intro x hx
          rcases h3 x hx with hxn | hxs
          · rcases List.mem_append.mp hxn with h' | h'
            · exact Or.inl h'
            · right
              have hx1 : x.1 = a := by
                split at h'
                · cases h'
                · rcases List.mem_singleton.mp h' with rfl
                  rfl
              rw [hx1]
              exact fun hc => hne hc.symm
          · exact Or.inr hxs
      · simp only [runSlot, ha]
        exact ih m an w n
      · simp only [runSlot, ha]
        exact ⟨rfl, fun x hx => Or.inl hx, fun x hx => Or.inl hx⟩
  · intro scans m an w n
    simp only [runSlot, hs]

/-- C8 witness: with the first of two scans under maintenance and empty
accumulators, its seen set is unchanged, no write or notification carries
its name, and the slot run equals the run over the remaining scans. -/
theorem claim_C8_witness :
    resultSeen (runSlot ["scan1", "scan2"] maintFetch emptySeenMap false [] []) "scan1" =
      emptySeenMap "scan1" ∧
    (∀ x ∈ resultWrites (runSlot ["scan1", "scan2"] maintFetch emptySeenMap false [] []),
      x ∈ ([] : List (String × List String)) ∨ x.1 ≠ "scan1") ∧
    (∀ x ∈ resultNotifs (runSlot ["scan1", "scan2"] maintFetch emptySeenMap false [] []),
      x ∈ ([] : List (String × List String)) ∨ x.1 ≠ "scan1") ∧
    runSlot ["scan1", "scan2"] maintFetch emptySeenMap false [] [] =
      runSlot ["scan2"] maintFetch emptySeenMap false [] [] := by
  have h := claim_C8_maintenance_skip ("scan1") maintFetch rfl
  exact ⟨(h.1 ["scan1", "scan2"] emptySeenMap false [] []).1,
    (h.1 ["scan1", "scan2"] emptySeenMap false [] []).2.1,
    (h.1 ["scan1", "scan2"] emptySeenMap false [] []).2.2,
    h.2 ["scan2"] emptySeenMap false [] []⟩

/-- C9: within a trading day the seen set grows monotonically across
successful runs — after any prefix of `k + 1` runs it contains the seen set
after the first `k` — since each successful run applies
`seen |= current_set` and nothing in the slot loop removes elements. -/
theorem claim_C9_seen_monotone (seen0 : Finset String) (runs : List (List String)) (k : Nat) :
    seenAfterRuns seen0 (runs.take k) ⊆ seenAfterRuns seen0 (runs.take (k + 1)) := by
  unfold seenAfterRuns
  rw [List.take_succ, List.foldl_append]
  exact seen_subset_foldl _ _

/-- C10 counterexample: a file whose content is the valid JSON `5` is a
corrupt record, yet `load_seen` does not return the empty set — `set(data)`
raises a `TypeError` that nothing catches. -/
theorem claim_C10_counterexample :
    loadSeen (FileState.content (PyJson.num 5)) =
      Except.error ("TypeError: argument is not iterable") ∧
    Except.error ("TypeError: argument is not iterable") ≠
      (Except.ok ∅ : Except String (Finset PyPrim)) :=
  ⟨rfl, fun hc => Except.noConfusion hc⟩

/-- C10 (amended): `load_seen` returns the persisted set for a file written
by `save_seen`, and returns the empty set without raising when the file is
missing or its content fails to read or decode (`OSError`,
`json.JSONDecodeError` — the only exceptions it catches); but valid JSON
that is not iterable — a number, boolean or null — makes `set(data)` raise
an uncaught `TypeError`. -/
theorem claim_C10_load_seen_amended :
    (∀ stocks : Finset String,
      loadSeen (saveContent stocks) = .ok (stocks.image PyPrim.str)) ∧
    loadSeen FileState.missing = .ok ∅ ∧
    loadSeen FileState.unreadable = .ok ∅ ∧
    (∀ n : Int, loadSeen (.content (.num n)) =
      .error ("TypeError: argument is not iterable")) ∧
    (∀ b : Bool, loadSeen (.content (.bool b)) =
      .error ("TypeError: argument is not iterable")) ∧
    loadSeen (.content .null) = .error ("TypeError: argument is not iterable") :=
  ⟨loadSeen_saveContent, rfl, rfl, fun _ => rfl, fun _ => rfl, rfl⟩

end StockScanner
